import Mathlib

/-!
Shallow embedding of the ICG Dev Switcher audit engine (URL/topology checker,
analytics signature engine, robots.txt parser, SSL/security-header checker and
content/copyright checker), together with proofs settling the specification
claims about it.

JavaScript strings are modelled as Lean `String`/`List Char`; fallible network
calls (`fetch`) are reified as explicit outcome values (a resolved response or
a thrown fault message), so the `try`/`catch` structure of the source becomes a
`match` on outcomes.  JavaScript truthiness on strings (null/empty are falsy)
and `parseInt` coercions are modelled explicitly where the source relies on
them.
-/

/-! ### JavaScript string primitives -/

/-- JavaScript whitespace characters relevant to `trim`, `\s` and `parseInt`
(ASCII subset: space, tab, newline, carriage return, vertical tab, form feed). -/
def isJsSpace (c : Char) : Bool :=
  c = ' ' || c = '\t' || c = '\n' || c = '\r' || c = '\x0b' || c = '\x0c'

/-- `String.prototype.trim` on a character list. -/
def jsTrimL (cs : List Char) : List Char :=
  ((cs.dropWhile isJsSpace).reverse.dropWhile isJsSpace).reverse

/-- `String.prototype.toLowerCase` (ASCII) on a character list. -/
def jsToLowerL (cs : List Char) : List Char :=
  cs.map Char.toLower

/-- `str.split('\n')`: split a character list at every newline, keeping empty
segments (as JavaScript does). -/
def jsSplitNl : List Char → List (List Char)
  | [] => [[]]
  | c :: r =>
    if c = '\n' then [] :: jsSplitNl r
    else
      match jsSplitNl r with
      | h :: t => (c :: h) :: t
      | [] => [[c]]

/-- JavaScript truthiness for a nullable string (`null` and `""` are falsy). -/
def jsTruthy (o : Option String) : Bool :=
  match o with
  | some s => s != ""
  | none => false

/-- `a || b` for a nullable string falling back to a string (used for
`cell.finalUrl || cell.url`). -/
def jsOrStr (o : Option String) (b : String) : String :=
  match o with
  | some s => if s = "" then b else s
  | none => b

/-- Substring occurrence test on character lists. -/
def containsSub (needle : List Char) : List Char → Bool
  | [] => needle.isPrefixOf []
  | c :: r => needle.isPrefixOf (c :: r) || containsSub needle r

/-- `hay.includes(needle)` on strings. -/
def jsIncludes (hay needle : String) : Bool :=
  containsSub needle.data hay.data

def isDigitChar (c : Char) : Bool := '0' ≤ c && c ≤ '9'

/-- Decimal value of a digit list (most significant first). -/
def decVal (ds : List Char) : Nat :=
  ds.foldl (fun a c => a * 10 + (c.toNat - '0'.toNat)) 0

/-! ### URL / topology checker (`UrlChecker`) -/

namespace UrlChecker

/-- Outcome of one `fetch` call: either a resolved response (status, whether a
redirect was followed, the final URL, and a header lookup) or a thrown fault. -/
inductive FetchOutcome where
  | ok (status : Nat) (redirected : Bool) (finalUrl : String)
      (headers : String → Option String)
  | threw (msg : String)

/-- The per-URL test record produced by `UrlChecker.testSingleUrl`. -/
structure Cell where
  url : String
  status : String
  statusCode : Option Nat
  finalUrl : Option String
  redirected : Bool
  accessible : Bool
  cloudflareDetected : Bool
  error : Option String
  fallbackError : Option String
  note : Option String
deriving DecidableEq

/-- `UrlChecker.checkCloudflareHeaders`: a fixed list of `cf-*` headers, or a
`server` header mentioning cloudflare. -/
def checkCloudflareHeaders (h : String → Option String) : Bool :=
  ["cf-ray", "cf-cache-status", "cf-connecting-ip", "cf-worker"].any
    (fun n => jsTruthy (h n)) ||
  (match h "server" with
   | some s => s != "" && jsIncludes ⟨jsToLowerL s.data⟩ "cloudflare"
   | none => false)

/-- `UrlChecker.testSingleUrl`: primary redirect-following fetch; on a thrown
fault, a reduced-fidelity `no-cors` fallback fetch; on a second fault, an
unreachable cell.  The function is total: every outcome pair yields a cell. -/
def testSingleUrl (url : String) (primary fallback : FetchOutcome) : Cell :=
  match primary with
  | .ok st red fin h =>
      { url := url, status := "success", statusCode := some st,
        finalUrl := some fin, redirected := red, accessible := true,
        cloudflareDetected := checkCloudflareHeaders h,
        error := none, fallbackError := none, note := none }
  | .threw e =>
    match fallback with
    | .ok _ _ _ _ =>
        { url := url, status := "success", statusCode := none,
          finalUrl := some url, redirected := false, accessible := true,
          cloudflareDetected := false, error := none, fallbackError := none,
          note := some "Accessible but redirect detection limited by CORS" }
    | .threw e2 =>
        { url := url, status := "error", statusCode := none,
          finalUrl := none, redirected := false, accessible := false,
          cloudflareDetected := false, error := some e,
          fallbackError := some e2, note := none }

/-- `UrlChecker.getUrlKey`: classify a test URL by scheme and `www.` host
form (`new URL(url)` is modelled by splitting off the scheme and taking the
host up to the first slash). -/
def getUrlKey (url : String) : String :=
  let isHttps := "https://".data.isPrefixOf url.data
  let afterScheme :=
    if isHttps then url.data.drop 8
    else if "http://".data.isPrefixOf url.data then url.data.drop 7
    else url.data
  let hostname := afterScheme.takeWhile (fun c => c != '/')
  let hasWww := "www.".data.isPrefixOf hostname
  if isHttps && hasWww then "https-www"
  else if isHttps && !hasWww then "https-non-www"
  else if !isHttps && hasWww then "http-www"
  else "http-non-www"

/-- `domain.replace(/^www\./, '')`. -/
def stripLeadingWww (d : String) : String :=
  if "www.".data.isPrefixOf d.data then ⟨d.data.drop 4⟩ else d

/-- The four scheme × host-form combinations probed by `testUrl`. -/
def urlsToTest (baseDomain : String) : List String :=
  ["https://" ++ baseDomain, "https://www." ++ baseDomain,
   "http://" ++ baseDomain, "http://www." ++ baseDomain]

/-- JavaScript object property assignment on an association list: overwrite an
existing key in place, otherwise append. -/
def objSet (m : List (String × Cell)) (k : String) (v : Cell) :
    List (String × Cell) :=
  if m.any (fun p => p.1 = k) then
    m.map (fun p => if p.1 = k then (k, v) else p)
  else m ++ [(k, v)]

/-- JavaScript object property lookup (`tests[key]`, `undefined` as `none`). -/
def lookupA (m : List (String × Cell)) (k : String) : Option Cell :=
  (m.find? (fun p => p.1 = k)).map Prod.snd

/-- Optional-chaining accessor `cell?.accessible` (undefined is falsy). -/
def oAcc (o : Option Cell) : Bool :=
  match o with
  | some c => c.accessible
  | none => false

/-- Optional-chaining accessor `cell?.redirected`. -/
def oRed (o : Option Cell) : Bool :=
  match o with
  | some c => c.redirected
  | none => false

/-- Optional-chaining test `cell?.finalUrl?.startsWith('https:')`. -/
def oFinalHttps (o : Option Cell) : Bool :=
  match o with
  | some c =>
    match c.finalUrl with
    | some s => "https:".data.isPrefixOf s.data
    | none => false
  | none => false

/-- The `analysis` record filled in by `UrlChecker.analyzeResults`. -/
structure WwwAnalysis where
  httpsWorking : Bool
  httpRedirectsToHttps : Bool
  wwwRedirection : String
  preferredUrl : Option String
deriving DecidableEq

/-- The preferred URL taken from a cell: `cell.finalUrl || cell.url`
(unreachable when the cell is absent, which the guards rule out). -/
def prefOf (o : Option Cell) : Option String :=
  match o with
  | some c => some (jsOrStr c.finalUrl c.url)
  | none => none

/-- `UrlChecker.analyzeResults` over the completed tests map. -/
def analyzeResults (t : String → Option Cell) : WwwAnalysis :=
  let httpsWww := t "https-www"
  let httpsNonWww := t "https-non-www"
  let httpNonWww := t "http-non-www"
  let httpWww := t "http-www"
  let pair :=
    if oRed httpsWww && oAcc httpsNonWww && !oRed httpsNonWww then
      ("to-non-www", prefOf httpsNonWww)
    else if oRed httpsNonWww && oAcc httpsWww && !oRed httpsWww then
      ("to-www", prefOf httpsWww)
    else if oAcc httpsWww && oAcc httpsNonWww then
      ("both-work", (none : Option String))
    else
      ("unclear", none)
  { httpsWorking := oAcc httpsWww || oAcc httpsNonWww,
    httpRedirectsToHttps :=
      (oRed httpNonWww && oFinalHttps httpNonWww) ||
      (oRed httpWww && oFinalHttps httpWww),
    wwwRedirection := pair.1,
    preferredUrl := pair.2 }

/-- Modelled from the spec (for comparison with `analyzeResults`): the claimed
`wwwRedirection` decision table, in which `both-work` additionally requires
that neither https cell redirected, and every remaining case is `unclear`. -/
def specWwwRedirection (httpsWww httpsNonWww : Option Cell) : String :=
  if oRed httpsWww && oAcc httpsNonWww && !oRed httpsNonWww then "to-non-www"
  else if oRed httpsNonWww && oAcc httpsWww && !oRed httpsWww then "to-www"
  else if oAcc httpsWww && oAcc httpsNonWww &&
      !oRed httpsWww && !oRed httpsNonWww then "both-work"
  else "unclear"

/-- The aggregate produced by `UrlChecker.testUrl` (the DNS-over-HTTPS IP
lookup that runs after the analysis is an external collaborator and is not
modelled). -/
structure UrlTestResults where
  domain : String
  tests : List (String × Cell)
  analysis : WwwAnalysis
  isCloudflare : Bool

/-- `UrlChecker.testUrl`: probe the four combinations in order, keying each
cell by `getUrlKey`, then analyze; `probe` supplies each URL's primary and
fallback fetch outcomes. -/
def testUrl (domain : String)
    (probe : String → FetchOutcome × FetchOutcome) : UrlTestResults :=
  let baseDomain := stripLeadingWww domain
  let urls := urlsToTest baseDomain
  let tests := urls.foldl
    (fun m u => objSet m (getUrlKey u) (testSingleUrl u (probe u).1 (probe u).2))
    []
  { domain := domain,
    tests := tests,
    analysis := analyzeResults (lookupA tests),
    isCloudflare :=
      urls.any (fun u => (testSingleUrl u (probe u).1 (probe u).2).cloudflareDetected) }

end UrlChecker

/-! ### Analytics signature engine (`AnalyticsChecker`) -/

namespace AnalyticsChecker

/-- A character matched by `[A-Z0-9]` in the GA4/GTM identifier regexes. -/
def idChar (c : Char) : Bool :=
  ('A' ≤ c && c ≤ 'Z') || ('0' ≤ c && c ≤ '9')

/-- All matches of `/G-[A-Z0-9]+/g`: scan left to right; a failed partial
match advances one character, a successful (greedy) match resumes after its
end, as the JavaScript regex engine does. -/
def scanGA4 : List Char → List String
  | 'G' :: '-' :: rest =>
    if (rest.takeWhile idChar).isEmpty then scanGA4 ('-' :: rest)
    else
      String.mk ('G' :: '-' :: rest.takeWhile idChar) ::
        scanGA4 (rest.dropWhile idChar)
  | _ :: rest => scanGA4 rest
  | [] => []
termination_by l => l.length
decreasing_by
  · simp only [List.length_cons]; omega
  · have := (List.dropWhile_sublist (l := rest) idChar).length_le
    simp only [List.length_cons]; omega
  · simp only [List.length_cons]; omega

/-- All matches of `/GTM-[A-Z0-9]+/g`. -/
def scanGTM : List Char → List String
  | 'G' :: 'T' :: 'M' :: '-' :: rest =>
    if (rest.takeWhile idChar).isEmpty then scanGTM ('T' :: 'M' :: '-' :: rest)
    else
      String.mk ('G' :: 'T' :: 'M' :: '-' :: rest.takeWhile idChar) ::
        scanGTM (rest.dropWhile idChar)
  | _ :: rest => scanGTM rest
  | [] => []
termination_by l => l.length
decreasing_by
  · simp only [List.length_cons]; omega
  · have := (List.dropWhile_sublist (l := rest) idChar).length_le
    simp only [List.length_cons]; omega
  · simp only [List.length_cons]; omega

/-- All matches of `/UA-\d+-\d+/g` (deprecated Universal Analytics ids). -/
def scanUA : List Char → List String
  | 'U' :: 'A' :: '-' :: rest =>
    if (rest.takeWhile isDigitChar).isEmpty then scanUA ('A' :: '-' :: rest)
    else
      match h : rest.dropWhile isDigitChar with
      | '-' :: r2 =>
        if (r2.takeWhile isDigitChar).isEmpty then scanUA ('A' :: '-' :: rest)
        else
          String.mk ('U' :: 'A' :: '-' :: rest.takeWhile isDigitChar ++
              '-' :: r2.takeWhile isDigitChar) ::
            scanUA (r2.dropWhile isDigitChar)
      | _ => scanUA ('A' :: '-' :: rest)
  | _ :: rest => scanUA rest
  | [] => []
termination_by l => l.length
decreasing_by
  · simp only [List.length_cons]; omega
  · simp only [List.length_cons]; omega
  · have h1 : (rest.dropWhile isDigitChar).length ≤ rest.length :=
      (List.dropWhile_sublist (l := rest) isDigitChar).length_le
    have h2 : (r2.dropWhile isDigitChar).length ≤ r2.length :=
      (List.dropWhile_sublist (l := r2) isDigitChar).length_le
    rw [h] at h1
    simp only [List.length_cons] at h1 ⊢
    omega
  · simp only [List.length_cons]; omega
  · simp only [List.length_cons]; omega

/-- `[...new Set(raw)]`: de-duplicate keeping first occurrences, preserving
encounter order. -/
def jsSetList : List String → List String
  | [] => []
  | a :: l => a :: jsSetList (l.filter (fun b => b != a))
termination_by l => l.length
decreasing_by
  exact Nat.lt_succ_of_le (List.length_filter_le _ _)

/-- The over-count detection shared by the GA4 and GTM blocks: when duplicate
raw matches exist, report every identifier whose raw occurrence count exceeds
2, together with that count (iteration order is first-occurrence order, as for
`Object.keys` of the counts object). -/
def overcountPairs (raw : List String) : List (String × Nat) :=
  let uniq := jsSetList raw
  if uniq.length < raw.length then
    uniq.filterMap (fun id =>
      if 2 < raw.count id then some (id, raw.count id) else none)
  else []

/-- The GA4 over-count warning text. -/
def ga4Msg (id : String) (c : Nat) : String :=
  "⚠️ Excessive GA4 ID counts: " ++ id ++ " appears " ++ toString c ++
    " times (Standard gtag.js uses it twice)."

/-- The GTM over-count warning text. -/
def gtmMsg (id : String) (c : Nat) : String :=
  "⚠️ Excessive GTM counts: " ++ id ++ " appears " ++ toString c ++
    " times (Standard is 2: Script + Noscript)."

/-- The `googleAnalytics` component of the fingerprint. -/
structure GASection where
  found : Bool
  versions : List String
  trackingIds : List String
  issues : List String
deriving DecidableEq

/-- The `googleTagManager` component of the fingerprint. -/
structure GTMSection where
  found : Bool
  containerIds : List String
  issues : List String
deriving DecidableEq

/-- The analytics fingerprint assembled by `detectAnalytics`.  The embedding
covers the components the claims concern (Google Analytics and Google Tag
Manager, plus the simple substring-based detectors); the cookie-consent and
retargeting provider tables are presentation-level pattern lists that no claim
references and are not modelled. -/
structure Analytics where
  googleAnalytics : GASection
  googleTagManager : GTMSection
  mixpanel : Bool
  amplitude : Bool
  segment : Bool
  intercom : Bool
  zendesk : Bool
deriving DecidableEq

/-- `AnalyticsChecker.detectAnalytics` (pure function over the fetched
markup). -/
def detectAnalytics (html : String) : Analytics :=
  let uaMatches := scanUA html.data
  let uniqueUA := jsSetList uaMatches
  let ga4Matches := scanGA4 html.data
  let uniqueGA4 := jsSetList ga4Matches
  let gtmMatches := scanGTM html.data
  let uniqueGTM := jsSetList gtmMatches
  { googleAnalytics :=
      { found := !uaMatches.isEmpty || !ga4Matches.isEmpty,
        versions := if !ga4Matches.isEmpty then ["GA4"] else [],
        trackingIds :=
          (if !uaMatches.isEmpty then uniqueUA else []) ++
          (if !ga4Matches.isEmpty then uniqueGA4 else []),
        issues :=
          (if !uaMatches.isEmpty then
            ["⚠️ Deprecated Universal Analytics tag(s) found: " ++
              String.intercalate ", " uniqueUA ++ ". These should be removed."]
          else []) ++
          (overcountPairs ga4Matches).map (fun p => ga4Msg p.1 p.2) },
    googleTagManager :=
      { found := !gtmMatches.isEmpty,
        containerIds := if !gtmMatches.isEmpty then uniqueGTM else [],
        issues :=
          (if 1 < uniqueGTM.length then
            ["⚠️ Multiple distinct GTM containers detected (" ++
              String.intercalate ", " uniqueGTM ++ "). Verify if this is intentional."]
          else []) ++
          (overcountPairs gtmMatches).map (fun p => gtmMsg p.1 p.2) },
    mixpanel := jsIncludes html "mixpanel" || jsIncludes html "cdn.mxpnl.com",
    amplitude := jsIncludes html "amplitude" || jsIncludes html "cdn.amplitude.com",
    segment := jsIncludes html "segment.com" || jsIncludes html "cdn.segment.com",
    intercom := jsIncludes html "intercom" || jsIncludes html "widget.intercom.io",
    zendesk := jsIncludes html "zendesk" || jsIncludes html "static.zdassets.com" }

/-- Outcome of the page `fetch` in `testAnalyticsTracking`: a thrown fault or
a response with its `ok` flag, status code, and body text. -/
inductive PageFetch where
  | threw (msg : String)
  | resp (ok : Bool) (statusCode : Nat) (body : String)

/-- The result record of `testAnalyticsTracking` (the presentation-only
`summary` lines are not modelled). -/
structure AnalyticsCheckResult where
  url : String
  status : String
  message : Option String
  analytics : Option Analytics

/-- `AnalyticsChecker.testAnalyticsTracking`: fetch the page; a thrown fault
or a non-ok response yields an `error` result carrying the fault or HTTP
status message and no fingerprint; a successful fetch yields a `success`
result with the fingerprint of the body. -/
def testAnalyticsTracking (url : String) (fetch : PageFetch) :
    AnalyticsCheckResult :=
  match fetch with
  | .threw e => { url := url, status := "error", message := some e, analytics := none }
  | .resp ok code body =>
    if ok then
      { url := url, status := "success", message := none,
        analytics := some (detectAnalytics body) }
    else
      { url := url, status := "error",
        message := some ("Failed to fetch page: " ++ toString code),
        analytics := none }

end AnalyticsChecker

/-! ### Robots.txt directive parser (`RobotsChecker`) -/

namespace RobotsChecker

def isHexDigitChar (c : Char) : Bool :=
  isDigitChar c || ('a' ≤ c && c ≤ 'f') || ('A' ≤ c && c ≤ 'F')

def hexDigitVal (c : Char) : Nat :=
  if isDigitChar c then c.toNat - '0'.toNat
  else if 'a' ≤ c && c ≤ 'f' then c.toNat - 'a'.toNat + 10
  else c.toNat - 'A'.toNat + 10

def hexVal (ds : List Char) : Nat :=
  ds.foldl (fun a c => a * 16 + hexDigitVal c) 0

/-- The digit run of `parseInt` after sign handling: a `0x`/`0X` prefix makes
the radix 16, otherwise 10; no digits means `NaN` (`none`). -/
def parseIntDigits (s : List Char) : Option Nat :=
  match s with
  | '0' :: c :: r =>
    if c = 'x' || c = 'X' then
      let ds := r.takeWhile isHexDigitChar
      if ds.isEmpty then none else some (hexVal ds)
    else
      some (decVal (('0' :: c :: r).takeWhile isDigitChar))
  | _ =>
    let ds := s.takeWhile isDigitChar
    if ds.isEmpty then none else some (decVal ds)

/-- JavaScript `parseInt(value)`: skip leading whitespace, optional sign, then
the longest digit run (decimal, or hexadecimal after `0x`); `NaN` is `none`. -/
def jsParseInt (v : List Char) : Option Int :=
  let s := v.dropWhile isJsSpace
  match s with
  | '-' :: r => (parseIntDigits r).map (fun n => -(n : Int))
  | '+' :: r => (parseIntDigits r).map (fun n => (n : Int))
  | r => (parseIntDigits r).map (fun n => (n : Int))

/-- `parseInt(value) || null`: both `NaN` and `0` coerce to `null`. -/
def jsOrNull (o : Option Int) : Option Int :=
  match o with
  | some n => if n = 0 then none else some n
  | none => none

/-- The `analysis` record built by `analyzeRobotsContent`. -/
structure RobotsAnalysis where
  userAgents : List String
  disallowedPaths : List (String × String)
  allowedPaths : List (String × String)
  sitemaps : List String
  crawlDelay : Option Int
  totalLines : Nat
  hasWildcard : Bool
deriving DecidableEq

/-- Classify one line: trim it, skip blank and `#`-comment lines, and split
the rest at the first colon into a lowercased, trimmed directive name and a
trimmed value (lines with no colon are skipped). -/
def lineDirective (line : List Char) : Option (String × List Char) :=
  let t := jsTrimL line
  match t with
  | [] => none
  | '#' :: _ => none
  | _ =>
    let before := t.takeWhile (fun c => c != ':')
    match t.dropWhile (fun c => c != ':') with
    | [] => none
    | _ :: after => some (⟨jsTrimL (jsToLowerL before)⟩, jsTrimL after)

/-- The directive dispatch of `analyzeRobotsContent`, threading the current
user-agent context. -/
def processDirective (st : RobotsAnalysis × Option (List Char))
    (d : String) (v : List Char) : RobotsAnalysis × Option (List Char) :=
  let a := st.1
  let ua := st.2
  if d = "user-agent" then
    ({ a with
        userAgents :=
          if a.userAgents.contains (String.mk v) then a.userAgents
          else a.userAgents ++ [String.mk v],
        hasWildcard := if v = "*".data then true else a.hasWildcard },
      some v)
  else if d = "disallow" then
    (match ua with
     | some u => { a with disallowedPaths := a.disallowedPaths ++ [(String.mk u, String.mk v)] }
     | none => a, ua)
  else if d = "allow" then
    (match ua with
     | some u => { a with allowedPaths := a.allowedPaths ++ [(String.mk u, String.mk v)] }
     | none => a, ua)
  else if d = "sitemap" then
    ({ a with sitemaps := a.sitemaps ++ [String.mk v] }, ua)
  else if d = "crawl-delay" then
    ({ a with crawlDelay := jsOrNull (jsParseInt v) }, ua)
  else st

/-- Process one robots.txt line. -/
def processLine (st : RobotsAnalysis × Option (List Char)) (line : List Char) :
    RobotsAnalysis × Option (List Char) :=
  match lineDirective line with
  | none => st
  | some (d, v) => processDirective st d v

/-- The parser core over the split lines. -/
def analyzeLines (lines : List (List Char)) : RobotsAnalysis :=
  let init : RobotsAnalysis :=
    { userAgents := [], disallowedPaths := [], allowedPaths := [],
      sitemaps := [], crawlDelay := none, totalLines := lines.length,
      hasWildcard := false }
  (lines.foldl processLine (init, none)).1

/-- `RobotsChecker.analyzeRobotsContent`: split on newlines and fold the line
processor. -/
def analyzeRobotsContent (content : String) : RobotsAnalysis :=
  analyzeLines (jsSplitNl content.data)

/-- The sitemap values contributed by a list of lines, in order. -/
def sitemapValues (ls : List (List Char)) : List String :=
  ls.filterMap (fun l =>
    match lineDirective l with
    | some (d, v) => if d = "sitemap" then some (String.mk v) else none
    | none => none)

/-- The disallowed-path records contributed by a list of lines starting from a
given user-agent context. -/
def disallowDelta (ua : Option (List Char)) : List (List Char) → List (String × String)
  | [] => []
  | l :: ls =>
    match lineDirective l with
    | some (d, v) =>
      if d = "user-agent" then disallowDelta (some v) ls
      else if d = "disallow" then
        match ua with
        | some u => (String.mk u, String.mk v) :: disallowDelta ua ls
        | none => disallowDelta ua ls
      else disallowDelta ua ls
    | none => disallowDelta ua ls

/-- The allowed-path records contributed by a list of lines starting from a
given user-agent context. -/
def allowDelta (ua : Option (List Char)) : List (List Char) → List (String × String)
  | [] => []
  | l :: ls =>
    match lineDirective l with
    | some (d, v) =>
      if d = "user-agent" then allowDelta (some v) ls
      else if d = "allow" then
        match ua with
        | some u => (String.mk u, String.mk v) :: allowDelta ua ls
        | none => allowDelta ua ls
      else allowDelta ua ls
    | none => allowDelta ua ls

end RobotsChecker

/-! ### SSL / security-headers checker (`SSLChecker`) -/

namespace SSLChecker

/-- Outcome of the `HEAD` fetch used by `validateSSLHeaders`: a thrown fault,
or a resolved response with a header lookup. -/
inductive HeadFetch where
  | ok (headers : String → Option String)
  | threw (msg : String)

/-- The four security headers evaluated, in iteration order. -/
def secHeaderNames : List String :=
  ["strict-transport-security", "content-security-policy",
   "x-frame-options", "x-content-type-options"]

/-- Result of `validateSSLHeaders` (the itemized report lines are
presentation-only and not modelled; `securityScore` is the found-count and is
only meaningful when `success` is set, matching the source where the failure
object carries no score). -/
structure SecAnalysis where
  success : Bool
  securityScore : Nat
deriving DecidableEq

/-- The found-count of the four evaluated headers (a header counts when its
value is truthy, i.e. present and non-empty). -/
def headerFoundCount (h : String → Option String) : Nat :=
  secHeaderNames.countP (fun n => jsTruthy (h n))

/-- `SSLChecker.validateSSLHeaders` over the fetch outcome. -/
def validateSSLHeaders (fetch : HeadFetch) : SecAnalysis :=
  match fetch with
  | .ok h => { success := true, securityScore := headerFoundCount h }
  | .threw _ => { success := false, securityScore := 0 }

/-- Result of `getSSLCertificateDetails`: whether a data-bearing tier of the
fallback chain succeeded, and the grade string it carried (the certificate
details only affect the report text and grade, never the overall status). -/
structure CertDetails where
  success : Bool
  grade : Option String
deriving DecidableEq

/-- The status/grade core of `SSLChecker.testSSLCertificate`: an unreachable
HTTPS connection is an `error`; otherwise the status starts as `success` and
degrades to `warning` exactly when the security-header analysis failed or
found a zero score. -/
def testSSLCertificate (connOk : Bool) (securityAnalysis : SecAnalysis)
    (certDetails : CertDetails) : String × String :=
  if !connOk then ("error", "Basic Check")
  else
    let grade :=
      if certDetails.success then
        match certDetails.grade with
        | some g => if g = "" then "Unknown" else g
        | none => "Unknown"
      else "Basic Check"
    let status :=
      if securityAnalysis.success then
        if securityAnalysis.securityScore = 0 then "warning" else "success"
      else "warning"
    (status, grade)

end SSLChecker

/-! ### Content / copyright checker (`NonDeveloperChecker`)

The six copyright regex patterns are embedded as bespoke matchers with the
JavaScript engine semantics they rely on: leftmost-position search, greedy
`\s*` with backtracking, an optional `©?`, a lazy company group `([^.\n<]+?)`
that attempts its following terminator before each extension, and first-match
alternation. -/

namespace NonDeveloperChecker

/-- The company-name character class `[^.\n<]`. -/
def companyChar (c : Char) : Bool :=
  !(c = '.' || c = '\n' || c = '<')

/-- The separator class `[.,\s]` of the company-first patterns. -/
def sepChar (c : Char) : Bool :=
  c = '.' || c = ',' || isJsSpace c

/-- `\s*` followed by a literal character, greedy with backtracking; returns
the consumed characters. -/
def spThen (ch : Char) : List Char → Option (List Char)
  | [] => none
  | x :: r =>
    if isJsSpace x then
      match spThen ch r with
      | some t => some (x :: t)
      | none => if x = ch then some [x] else none
    else if x = ch then some [x] else none

/-- `\s*$`: succeeds exactly on an all-whitespace remainder. -/
def spEnd (s : List Char) : Option (List Char) :=
  if s.all isJsSpace then some s else none

/-- The year-first terminator `(?:\s*\.|\s*$|\s*<|\s*\||\s*\n)`, alternatives
tried in order. -/
def fmt1Term (s : List Char) : Option (List Char) :=
  (spThen '.' s) <|> (spEnd s) <|> (spThen '<' s) <|> (spThen '|' s) <|>
    (spThen '\n' s)

/-- Exactly four decimal digits (`(\d{4})`). -/
def digits4 : List Char → Option (List Char × List Char)
  | a :: b :: c :: d :: r =>
    if isDigitChar a && isDigitChar b && isDigitChar c && isDigitChar d then
      some ([a, b, c, d], r)
    else none
  | _ => none

/-- `(?:[.,\s]+)(\d{4})` of the company-first patterns: a non-empty separator
run then four digits; returns (consumed, year digits).  The separator class
and `\d` are disjoint, so the greedy run needs no backtracking. -/
def fmt2Mid (s : List Char) : Option (List Char × List Char) :=
  let run := s.takeWhile sepChar
  if run.isEmpty then none
  else
    match digits4 (s.drop run.length) with
    | some (ds, _) => some (run ++ ds, ds)
    | none => none

/-- The lazy loop of `([^.\n<]+?)` after its first character: attempt the
terminator before each one-character extension. -/
def lazyRun {β : Type} (term : List Char → Option β) (acc : List Char) :
    List Char → Option (List Char × β)
  | [] =>
    match term [] with
    | some b => some (acc, b)
    | none => none
  | c :: r =>
    match term (c :: r) with
    | some b => some (acc, b)
    | none => if companyChar c then lazyRun term (acc ++ [c]) r else none

/-- `([^.\n<]+?)` followed by `term`: at least one class character, then the
lazy loop; returns (company group, terminator result). -/
def lazyCompany {β : Type} (term : List Char → Option β) :
    List Char → Option (List Char × β)
  | c :: r => if companyChar c then lazyRun term [c] r else none
  | [] => none

/-- Greedy `\s*` with backtracking: try consuming `j` leading whitespace
characters (longest first) before the continuation; the continuation returns
(consumed, payload). -/
def tryFrom {β : Type} (next : List Char → Option (List Char × β)) :
    Nat → List Char → Option (List Char × β)
  | 0, s => next s
  | j + 1, s =>
    match next (s.drop (j + 1)) with
    | some (con, b) => some (s.take (j + 1) ++ con, b)
    | none => tryFrom next j s

/-- `\s*` then a continuation, starting from the maximal whitespace run. -/
def spacesBack {β : Type} (next : List Char → Option (List Char × β))
    (s : List Char) : Option (List Char × β) :=
  tryFrom next (s.takeWhile isJsSpace).length s

/-- The year-first core `\s*(\d{4})\s*([^.\n<]+?)(?:…)` after the copyright
symbol; returns (consumed, (year group, company group)). -/
def fmt1From (r0 : List Char) : Option (List Char × (List Char × List Char)) :=
  spacesBack (fun r1 =>
    match digits4 r1 with
    | some (ds, r2) =>
      match spacesBack (fun r3 =>
          (lazyCompany fmt1Term r3).map (fun p => (p.1 ++ p.2, p.1))) r2 with
      | some (con2, comp) => some (ds ++ con2, (ds, comp))
      | none => none
    | none => none) r0

/-- The company-first core `\s*([^.\n<]+?)(?:[.,\s]+)(\d{4})` after the
copyright symbol; returns (consumed, (company group, year group)). -/
def fmt2From (r0 : List Char) : Option (List Char × (List Char × List Char)) :=
  spacesBack (fun r1 =>
    (lazyCompany fmt2Mid r1).map (fun p => (p.1 ++ p.2.1, (p.1, p.2.2)))) r0

/-- Case-insensitive literal match at the start of `s`. -/
def ciHasPrefixAt (pat : List Char) (s : List Char) : Bool :=
  decide ((s.take pat.length).map Char.toLower = pat)

/-- The `©` symbol head. -/
def headSymAlts (s : List Char) : List (List Char × List Char) :=
  match s with
  | '©' :: r => [(['©'], r)]
  | _ => []

/-- The `copyright\s*©?` head (case-insensitive), listing its backtracking
alternatives in preference order: spaces longest first and, at each split,
with the optional `©` consumed before skipped. -/
def headCopyrightAlts (s : List Char) : List (List Char × List Char) :=
  if ciHasPrefixAt "copyright".data s then
    let h9 := s.take 9
    let r9 := s.drop 9
    let maxSp := (r9.takeWhile isJsSpace).length
    (List.range (maxSp + 1)).reverse.flatMap (fun j =>
      let sp := r9.take j
      match r9.drop j with
      | '©' :: rest => [(h9 ++ sp ++ ['©'], rest), (h9 ++ sp, '©' :: rest)]
      | rest => [(h9 ++ sp, rest)])
  else []

/-- The `\(c\)` head (case-insensitive). -/
def headParenCAlts (s : List Char) : List (List Char × List Char) :=
  if ciHasPrefixAt "(c)".data s then [(s.take 3, s.drop 3)] else []

/-- Anchored attempt of one pattern at one position: try each head
alternative, then the core; returns (match0, group1, group2). -/
def attemptWith (headAlts : List Char → List (List Char × List Char))
    (core : List Char → Option (List Char × (List Char × List Char)))
    (s : List Char) : Option (List Char × List Char × List Char) :=
  (headAlts s).findSome? (fun hp =>
    (core hp.2).map (fun q => (hp.1 ++ q.1, q.2.1, q.2.2)))

/-- Leftmost search: attempt the pattern at each position, left to right. -/
def searchPat (attempt : List Char → Option (List Char × List Char × List Char)) :
    List Char → Option (List Char × List Char × List Char)
  | [] => attempt []
  | c :: r =>
    match attempt (c :: r) with
    | some m => some m
    | none => searchPat attempt r

/-- The six `copyrightPatterns`, in source order: the three year-first
variants, then the three company-first variants. -/
def copyrightPatterns :
    List (List Char → Option (List Char × List Char × List Char)) :=
  [searchPat (attemptWith headSymAlts fmt1From),
   searchPat (attemptWith headCopyrightAlts fmt1From),
   searchPat (attemptWith headParenCAlts fmt1From),
   searchPat (attemptWith headSymAlts fmt2From),
   searchPat (attemptWith headCopyrightAlts fmt2From),
   searchPat (attemptWith headParenCAlts fmt2From)]

/-- A successfully extracted copyright match. -/
structure FoundCopyright where
  text : String
  year : Nat
  companyName : String
  location : String
deriving DecidableEq

/-- `/^\d{4}$/` on a capture group. -/
def isYear4 (g : List Char) : Bool :=
  g.length = 4 && g.all isDigitChar

/-- The `extractMatch` helper: decide which capture group is the four-digit
year by shape, not by position; reject matches where neither group is. -/
def extractMatch (m0 g1 g2 : List Char) (location : String) :
    Option FoundCopyright :=
  if isYear4 g1 then
    some { text := ⟨jsTrimL m0⟩, year := decVal g1,
           companyName := ⟨jsTrimL g2⟩, location := location }
  else if isYear4 g2 then
    some { text := ⟨jsTrimL m0⟩, year := decVal g2,
           companyName := ⟨jsTrimL g1⟩, location := location }
  else none

/-- Run the six patterns in order over one text; a pattern whose match fails
extraction falls through to the next pattern, as in the source loop. -/
def findCopyrightIn (text : String) (location : String) :
    Option FoundCopyright :=
  copyrightPatterns.findSome? (fun pat =>
    (pat text.data).bind (fun m => extractMatch m.1 m.2.1 m.2.2 location))

/-- The three boilerplate phrases of the trailing-"rights reserved" regex, in
alternation order. -/
def reservedPhrases : List (List Char) :=
  ["all rights reserved".data, "reserved".data, "rights reserved".data]

/-- `\s*(all rights reserved|reserved|rights reserved).*$` anchored at one
position: whitespace, a phrase (case-insensitively), then a newline-free
remainder. -/
def reservedAt (s : List Char) : Bool :=
  let r := s.dropWhile isJsSpace
  reservedPhrases.any (fun p =>
    ciHasPrefixAt p r && !(r.drop p.length).contains '\n')

/-- `replace` of the boilerplate regex with the empty string: cut the text at
the leftmost matching position (the match extends to the end). -/
def stripReservedFrom : List Char → List Char
  | [] => []
  | c :: r => if reservedAt (c :: r) then [] else c :: stripReservedFrom r

/-- The company-name cleanup: trim, strip the boilerplate, trim again, then
drop one trailing period or comma. -/
def cleanCompany (name : String) : String :=
  let s1 := jsTrimL name.data
  let s2 := jsTrimL (stripReservedFrom s1)
  let s3 :=
    match s2.reverse with
    | c :: r => if c = '.' || c = ',' then r.reverse else s2
    | [] => s2
  ⟨s3⟩

/-- The record returned by `checkFooterCopyright`. -/
structure CopyrightResult where
  found : Bool
  text : String
  year : Option Nat
  companyName : String
  location : String
  issues : List String
deriving DecidableEq

/-- `NonDeveloperChecker.checkFooterCopyright`: search the footer-like
elements' texts first, then the whole document text; validate the year
against the current year and the cleaned company name. -/
def checkFooterCopyright (footerTexts : List String) (bodyText : String)
    (currentYear : Nat) : CopyrightResult :=
  let fromFooters :=
    footerTexts.findSome? (fun t => findCopyrightIn t "Footer element")
  let foundCopyright :=
    match fromFooters with
    | some f => some f
    | none => findCopyrightIn bodyText "Page content"
  match foundCopyright with
  | some f =>
    let clean := cleanCompany f.companyName
    { found := true, text := f.text, year := some f.year,
      companyName := clean, location := f.location,
      issues :=
        (if f.year ≠ currentYear then
          [if f.year < currentYear then
            "Copyright year (" ++ toString f.year ++
              ") is outdated - current year (" ++ toString currentYear ++
              ") required"
          else
            "Copyright year (" ++ toString f.year ++
              ") is in the future - current year (" ++ toString currentYear ++
              ") expected"]
        else []) ++
        (if clean = "" ∨ clean.length < 2 then
          ["Company name appears to be missing or too short"]
        else []) }
  | none =>
    { found := false, text := "", year := none, companyName := "",
      location := "Not found",
      issues := ["No copyright notice found in footer or page content"] }

end NonDeveloperChecker

/-! ### Auxiliary predicates and concrete inputs used by the claims -/

namespace RobotsChecker

/-- No line of `ls` parses as a `user-agent` directive. -/
def noUserAgentLines (ls : List (List Char)) : Bool :=
  ls.all (fun l =>
    match lineDirective l with
    | some (d, _) => d != "user-agent"
    | none => true)

/-- Every `crawl-delay` directive among `ls` has a value parsing to `0`. -/
def crawlDelayValuesZero (ls : List (List Char)) : Bool :=
  ls.all (fun l =>
    match lineDirective l with
    | some (d, v) => d != "crawl-delay" || (jsParseInt v == some 0)
    | none => true)

end RobotsChecker

/-- A completed-check cell that is reachable and was redirected (used as both
https cells of the `wwwRedirection` counterexample: a site whose www and
non-www hosts both resolve and both redirect, e.g. to a landing path). -/
def bothRedirectCell : UrlChecker.Cell :=
  { url := "https://example.com", status := "success", statusCode := some 200,
    finalUrl := some "https://example.com/home", redirected := true,
    accessible := true, cloudflareDetected := false, error := none,
    fallbackError := none, note := none }

/-- A completed tests map all four cells of which are reachable and
redirected. -/
def bothRedirectTests : String → Option UrlChecker.Cell :=
  fun _ => some bothRedirectCell

/-- A probe for which every fetch attempt throws (all four topology cells
fail). -/
def unreachableProbe : String → UrlChecker.FetchOutcome × UrlChecker.FetchOutcome :=
  fun _ => (.threw "network error", .threw "no-cors failed")

/-! ## Helper lemmas -/

open UrlChecker AnalyticsChecker RobotsChecker SSLChecker NonDeveloperChecker

theorem isPrefixOf_append_self (p t : List Char) :
    p.isPrefixOf (p ++ t) = true := by
  induction p with
  | nil => simp
  | cons a as ih => simp [List.isPrefixOf_cons₂, ih]

theorem mem_jsSetList (l : List String) (x : String) :
    x ∈ jsSetList l ↔ x ∈ l := by
  cases l with
  | nil => simp [jsSetList]
  | cons a t =>
    have ih := mem_jsSetList (t.filter (fun b => b != a)) x
    rw [jsSetList]
    simp only [List.mem_cons, ih, List.mem_filter, bne_iff_ne]
    by_cases hxa : x = a <;> simp [hxa]
termination_by l.length
decreasing_by
  simp only [List.length_cons]
  exact Nat.lt_succ_of_le (List.length_filter_le _ _)

theorem length_jsSetList_le (l : List String) :
    (jsSetList l).length ≤ l.length := by
  cases l with
  | nil => simp [jsSetList]
  | cons a t =>
    have ih := length_jsSetList_le (t.filter (fun b => b != a))
    have hf := List.length_filter_le (fun b => b != a) t
    rw [jsSetList]
    simp only [List.length_cons]
    omega
termination_by l.length
decreasing_by
  simp only [List.length_cons]
  exact Nat.lt_succ_of_le (List.length_filter_le _ _)

theorem length_filter_lt_of_mem_false {α : Type} {p : α → Bool} {t : List α}
    {x : α} (hx : x ∈ t) (hp : p x = false) :
    (t.filter p).length < t.length := by
  induction t with
  | nil => cases hx
  | cons b t ih =>
    rcases List.mem_cons.mp hx with rfl | hx'
    · simp only [List.filter_cons, hp, List.length_cons]
      exact Nat.lt_succ_of_le (List.length_filter_le _ _)
    · cases hpb : p b <;> simp only [List.filter_cons, hpb, List.length_cons]
      · exact Nat.lt_succ_of_lt (ih hx')
      · simpa using Nat.succ_lt_succ (ih hx')

theorem count_filter_ne (t : List String) (x a : String) (h : x ≠ a) :
    (t.filter (fun b => b != a)).count x = t.count x := by
  induction t with
  | nil => rfl
  | cons b t ih =>
    by_cases hba : b = a
    · subst hba
      have h1 : List.filter (fun c => c != b) (b :: t) =
          List.filter (fun c => c != b) t := by
        simp [List.filter_cons]
      rw [h1, ih, List.count_cons]
      simp [Ne.symm h]
    · have hb : (b != a) = true := bne_iff_ne.mpr hba
      have h1 : List.filter (fun c => c != a) (b :: t) =
          b :: List.filter (fun c => c != a) t := by
        simp [List.filter_cons, hb]
      rw [h1, List.count_cons, List.count_cons, ih]

theorem count_ge_two_length_lt (l : List String) (x : String)
    (h : 2 ≤ l.count x) :
    (jsSetList l).length < l.length := by
  cases l with
  | nil => simp at h
  | cons a t =>
    rw [jsSetList]
    simp only [List.length_cons]
    by_cases hxa : x = a
    · subst hxa
      have hcc := List.count_cons_self x t
      have hxm : x ∈ t := List.count_pos_iff.mp (by omega)
      have hlt : (t.filter (fun b => b != x)).length < t.length :=
        length_filter_lt_of_mem_false hxm (bne_self_eq_false x)
      have hle := length_jsSetList_le (t.filter (fun b => b != x))
      omega
    · have hc : (a :: t).count x = t.count x := List.count_cons_of_ne hxa t
      have hcf : (t.filter (fun b => b != a)).count x = t.count x :=
        count_filter_ne t x a hxa
      have ih := count_ge_two_length_lt (t.filter (fun b => b != a)) x (by omega)
      have hf := List.length_filter_le (fun b => b != a) t
      omega
termination_by l.length
decreasing_by
  subst_vars
  simp only [List.length_cons]
  exact Nat.lt_succ_of_le (List.length_filter_le _ _)

theorem mem_overcountPairs (raw : List String) (x : String) (c : Nat) :
    (x, c) ∈ overcountPairs raw ↔ (c = raw.count x ∧ 2 < raw.count x) := by
  unfold AnalyticsChecker.overcountPairs
  by_cases hlen : (jsSetList raw).length < raw.length
  · rw [if_pos hlen]
    simp only [List.mem_filterMap]
    constructor
    · rintro ⟨a, ha, heq⟩
      by_cases h2 : 2 < raw.count a
      · rw [if_pos h2] at heq
        simp only [Option.some.injEq, Prod.mk.injEq] at heq
        obtain ⟨rfl, rfl⟩ := heq
        exact ⟨rfl, h2⟩
      · rw [if_neg h2] at heq
        cases heq
    · rintro ⟨rfl, h2⟩
      refine ⟨x, ?_, ?_⟩
      · exact (mem_jsSetList raw x).mpr (List.count_pos_iff.mp (by omega))
      · rw [if_pos h2]
  · rw [if_neg hlen]
    simp only [List.not_mem_nil, false_iff]
    rintro ⟨hc, h2⟩
    exact absurd (count_ge_two_length_lt raw x (by omega)) hlen

/-! ## Claim theorems -/

/-- **C2**: a GA4 or GTM duplicate-id warning is emitted iff some single
identifier's raw match count in the html exceeds 2, and the warning names that
identifier and its true count; counts of exactly 1 or 2 never warn (the iff
and the count-faithfulness conjuncts make such warnings impossible).  The
warning texts land in the `detectAnalytics` fingerprint's issue lists. -/
theorem detectAnalytics_duplicate_warning_iff (html id : String) :
    (((id, (scanGA4 html.data).count id) ∈ overcountPairs (scanGA4 html.data)) ↔
        2 < (scanGA4 html.data).count id)
  ∧ (∀ c, (id, c) ∈ overcountPairs (scanGA4 html.data) →
        c = (scanGA4 html.data).count id ∧ 2 < c)
  ∧ (2 < (scanGA4 html.data).count id →
        ga4Msg id ((scanGA4 html.data).count id) ∈
          (detectAnalytics html).googleAnalytics.issues)
  ∧ (((id, (scanGTM html.data).count id) ∈ overcountPairs (scanGTM html.data)) ↔
        2 < (scanGTM html.data).count id)
  ∧ (∀ c, (id, c) ∈ overcountPairs (scanGTM html.data) →
        c = (scanGTM html.data).count id ∧ 2 < c)
  ∧ (2 < (scanGTM html.data).count id →
        gtmMsg id ((scanGTM html.data).count id) ∈
          (detectAnalytics html).googleTagManager.issues) := by
  refine ⟨?_, ?_, ?_, ?_, ?_, ?_⟩
  · rw [mem_overcountPairs]; simp
  · intro c hc
    have h := (mem_overcountPairs _ _ _).mp hc
    exact ⟨h.1, by omega⟩
  · intro h2
    have hm : (id, (scanGA4 html.data).count id) ∈
        overcountPairs (scanGA4 html.data) :=
      (mem_overcountPairs _ _ _).mpr ⟨rfl, h2⟩
    simp only [AnalyticsChecker.detectAnalytics]
    exact List.mem_append_right _ (List.mem_map.mpr ⟨(id, _), hm, rfl⟩)
  · rw [mem_overcountPairs]; simp
  · intro c hc
    have h := (mem_overcountPairs _ _ _).mp hc
    exact ⟨h.1, by omega⟩
  · intro h2
    have hm : (id, (scanGTM html.data).count id) ∈
        overcountPairs (scanGTM html.data) :=
      (mem_overcountPairs _ _ _).mpr ⟨rfl, h2⟩
    simp only [AnalyticsChecker.detectAnalytics]
    exact List.mem_append_right _ (List.mem_map.mpr ⟨(id, _), hm, rfl⟩)

/-- **C4**: once the HTTPS connection succeeds (`connOk = true`) and the
security-header analysis completes (the header fetch resolved with headers
`h`), the overall status is `warning` iff the found-count of the four
evaluated headers is exactly zero, and `success` iff it is nonzero —
regardless of the certificate-details tier. -/
theorem testSSLCertificate_warning_iff_no_headers (h : String → Option String)
    (cd : CertDetails) :
    ((testSSLCertificate true (validateSSLHeaders (.ok h)) cd).1 = "warning" ↔
      headerFoundCount h = 0)
  ∧ ((testSSLCertificate true (validateSSLHeaders (.ok h)) cd).1 = "success" ↔
      0 < headerFoundCount h) := by
  by_cases hc : headerFoundCount h = 0 <;>
    simp [SSLChecker.testSSLCertificate, SSLChecker.validateSSLHeaders, hc] <;>
    omega

/-- **C8**: a failed page fetch (thrown fault or non-ok response) makes the
analytics check report `error` with the fault or HTTP-status message preserved
and no fingerprint at all; the fingerprint is present iff the result status is
`success`. -/
theorem testAnalyticsTracking_error_isolation (url : String) :
    (∀ e, testAnalyticsTracking url (.threw e) =
      { url := url, status := "error", message := some e, analytics := none })
  ∧ (∀ code body, testAnalyticsTracking url (.resp false code body) =
      { url := url, status := "error",
        message := some ("Failed to fetch page: " ++ toString code),
        analytics := none })
  ∧ (∀ fetch, (testAnalyticsTracking url fetch).analytics.isSome ↔
      (testAnalyticsTracking url fetch).status = "success") := by
  refine ⟨fun e => rfl, fun code body => rfl, fun fetch => ?_⟩
  cases fetch with
  | threw e => simp [AnalyticsChecker.testAnalyticsTracking]
  | resp ok code body =>
    cases ok <;> simp [AnalyticsChecker.testAnalyticsTracking]

/-- **C10**: `testSingleUrl` is total at its boundary — every pair of fetch
outcomes yields a cell.  When the primary fetch throws and the fallback
succeeds, the cell is reachable, unredirected, has the requested URL as its
final URL and no cloudflare signal; when both throw, the cell is the `error`
cell carrying both fault messages; and a cell is unreachable exactly when
both attempts threw. -/
theorem testSingleUrl_totality (url : String) :
    (∀ e (st : Nat) (red : Bool) (fin : String) (hd : String → Option String),
      testSingleUrl url (.threw e) (.ok st red fin hd) =
        { url := url, status := "success", statusCode := none,
          finalUrl := some url, redirected := false, accessible := true,
          cloudflareDetected := false, error := none, fallbackError := none,
          note := some "Accessible but redirect detection limited by CORS" })
  ∧ (∀ e e2, testSingleUrl url (.threw e) (.threw e2) =
      { url := url, status := "error", statusCode := none, finalUrl := none,
        redirected := false, accessible := false, cloudflareDetected := false,
        error := some e, fallbackError := some e2, note := none })
  ∧ (∀ p f, (testSingleUrl url p f).accessible = false ↔
      ∃ e e2, p = FetchOutcome.threw e ∧ f = FetchOutcome.threw e2) := by
  refine ⟨fun e st red fin hd => rfl, fun e e2 => rfl, fun p f => ?_⟩
  cases p <;> cases f <;> simp [UrlChecker.testSingleUrl]

/-- **C6**: the three-line robots.txt content parses to the single wildcard
user agent, one disallowed root path scoped to it, and the one sitemap URL —
each line split on its first colon, so the colons inside the sitemap URL stay
in the value. -/
theorem analyzeRobotsContent_concrete :
    (analyzeRobotsContent
        "User-agent: *\nDisallow: /\nSitemap: https://x/sitemap.xml").userAgents
      = ["*"]
  ∧ (analyzeRobotsContent
        "User-agent: *\nDisallow: /\nSitemap: https://x/sitemap.xml").hasWildcard
      = true
  ∧ (analyzeRobotsContent
        "User-agent: *\nDisallow: /\nSitemap: https://x/sitemap.xml").disallowedPaths
      = [("*", "/")]
  ∧ (analyzeRobotsContent
        "User-agent: *\nDisallow: /\nSitemap: https://x/sitemap.xml").sitemaps
      = ["https://x/sitemap.xml"] := by
  refine ⟨?_, ?_, ?_, ?_⟩ <;> decide

/-- **C5**: on text containing exactly `© 2023 Acme Corp.` with current year
2025 the copyright check extracts year 2023 and company `Acme Corp` with an
outdated-year issue (via the year-first pattern); on `© Acme Corp, 2025` it
extracts the same company and year 2025 via the company-first pattern order,
with no issues. -/
theorem checkFooterCopyright_concrete :
    checkFooterCopyright [] "© 2023 Acme Corp." 2025 =
      { found := true, text := "© 2023 Acme Corp.", year := some 2023,
        companyName := "Acme Corp", location := "Page content",
        issues :=
          ["Copyright year (2023) is outdated - current year (2025) required"] }
  ∧ checkFooterCopyright [] "© Acme Corp, 2025" 2025 =
      { found := true, text := "© Acme Corp, 2025", year := some 2025,
        companyName := "Acme Corp", location := "Page content",
        issues := [] } := by
  refine ⟨?_, ?_⟩ <;> decide

/-! Per-line characterizations of the robots.txt line processor. -/

theorem pd_disallowedPaths (st : RobotsAnalysis × Option (List Char))
    (d : String) (v : List Char) :
    (processDirective st d v).1.disallowedPaths =
      st.1.disallowedPaths ++
        (if d = "disallow" then
          (match st.2 with
           | some u => [(String.mk u, String.mk v)]
           | none => [])
        else []) := by
  unfold RobotsChecker.processDirective
  by_cases h1 : d = "user-agent"
  · simp [h1]
  · by_cases h2 : d = "disallow"
    · cases hu : st.2 <;> simp [h1, h2, hu]
    · by_cases h3 : d = "allow"
      · cases hu : st.2 <;> simp [h1, h2, h3, hu]
      · by_cases h4 : d = "sitemap"
        · simp [h1, h2, h3, h4]
        · by_cases h5 : d = "crawl-delay"
          · simp [h1, h2, h3, h4, h5]
          · simp [h1, h2, h3, h4, h5]

theorem pd_allowedPaths (st : RobotsAnalysis × Option (List Char))
    (d : String) (v : List Char) :
    (processDirective st d v).1.allowedPaths =
      st.1.allowedPaths ++
        (if d = "allow" then
          (match st.2 with
           | some u => [(String.mk u, String.mk v)]
           | none => [])
        else []) := by
  unfold RobotsChecker.processDirective
  by_cases h1 : d = "user-agent"
  · simp [h1]
  · by_cases h2 : d = "disallow"
    · cases hu : st.2 <;> simp [h1, h2, hu]
    · by_cases h3 : d = "allow"
      · cases hu : st.2 <;> simp [h1, h2, h3, hu]
      · by_cases h4 : d = "sitemap"
        · simp [h1, h2, h3, h4]
        · by_cases h5 : d = "crawl-delay"
          · simp [h1, h2, h3, h4, h5]
          · simp [h1, h2, h3, h4, h5]

theorem pd_sitemaps (st : RobotsAnalysis × Option (List Char))
    (d : String) (v : List Char) :
    (processDirective st d v).1.sitemaps =
      st.1.sitemaps ++ (if d = "sitemap" then [String.mk v] else []) := by
  unfold RobotsChecker.processDirective
  by_cases h1 : d = "user-agent"
  · simp [h1]
  · by_cases h2 : d = "disallow"
    · cases hu : st.2 <;> simp [h1, h2, hu]
    · by_cases h3 : d = "allow"
      · cases hu : st.2 <;> simp [h1, h2, h3, hu]
      · by_cases h4 : d = "sitemap"
        · simp [h1, h2, h3, h4]
        · by_cases h5 : d = "crawl-delay"
          · simp [h1, h2, h3, h4, h5]
          · simp [h1, h2, h3, h4, h5]

theorem pd_crawlDelay (st : RobotsAnalysis × Option (List Char))
    (d : String) (v : List Char) :
    (processDirective st d v).1.crawlDelay =
      if d = "crawl-delay" then jsOrNull (jsParseInt v) else st.1.crawlDelay := by
  unfold RobotsChecker.processDirective
  by_cases h1 : d = "user-agent"
  · simp [h1]
  · by_cases h2 : d = "disallow"
    · cases hu : st.2 <;> simp [h1, h2, hu]
    · by_cases h3 : d = "allow"
      · cases hu : st.2 <;> simp [h1, h2, h3, hu]
      · by_cases h4 : d = "sitemap"
        · simp [h1, h2, h3, h4]
        · by_cases h5 : d = "crawl-delay"
          · simp [h1, h2, h3, h4, h5]
          · simp [h1, h2, h3, h4, h5]

theorem pd_currentUA (st : RobotsAnalysis × Option (List Char))
    (d : String) (v : List Char) :
    (processDirective st d v).2 =
      if d = "user-agent" then some v else st.2 := by
  unfold RobotsChecker.processDirective
  by_cases h1 : d = "user-agent"
  · simp [h1]
  · by_cases h2 : d = "disallow"
    · cases hu : st.2 <;> simp [h1, h2, hu]
    · by_cases h3 : d = "allow"
      · cases hu : st.2 <;> simp [h1, h2, h3, hu]
      · by_cases h4 : d = "sitemap"
        · simp [h1, h2, h3, h4]
        · by_cases h5 : d = "crawl-delay"
          · simp [h1, h2, h3, h4, h5]
          · simp [h1, h2, h3, h4, h5]

theorem pl_disallowedPaths (st : RobotsAnalysis × Option (List Char))
    (l : List Char) :
    (processLine st l).1.disallowedPaths =
      st.1.disallowedPaths ++
        (match lineDirective l with
         | some (d, v) =>
           if d = "disallow" then
             (match st.2 with
              | some u => [(String.mk u, String.mk v)]
              | none => [])
           else []
         | none => []) := by
  cases hld : lineDirective l with
  | none => simp [RobotsChecker.processLine, hld]
  | some p =>
    obtain ⟨d, v⟩ := p
    simp [RobotsChecker.processLine, hld, pd_disallowedPaths]

theorem pl_allowedPaths (st : RobotsAnalysis × Option (List Char))
    (l : List Char) :
    (processLine st l).1.allowedPaths =
      st.1.allowedPaths ++
        (match lineDirective l with
         | some (d, v) =>
           if d = "allow" then
             (match st.2 with
              | some u => [(String.mk u, String.mk v)]
              | none => [])
           else []
         | none => []) := by
  cases hld : lineDirective l with
  | none => simp [RobotsChecker.processLine, hld]
  | some p =>
    obtain ⟨d, v⟩ := p
    simp [RobotsChecker.processLine, hld, pd_allowedPaths]

theorem pl_sitemaps (st : RobotsAnalysis × Option (List Char)) (l : List Char) :
    (processLine st l).1.sitemaps =
      st.1.sitemaps ++
        (match lineDirective l with
         | some (d, v) => if d = "sitemap" then [String.mk v] else []
         | none => []) := by
  cases hld : lineDirective l with
  | none => simp [RobotsChecker.processLine, hld]
  | some p =>
    obtain ⟨d, v⟩ := p
    simp [RobotsChecker.processLine, hld, pd_sitemaps]

theorem pl_crawlDelay (st : RobotsAnalysis × Option (List Char)) (l : List Char) :
    (processLine st l).1.crawlDelay =
      match lineDirective l with
      | some (d, v) =>
        if d = "crawl-delay" then jsOrNull (jsParseInt v) else st.1.crawlDelay
      | none => st.1.crawlDelay := by
  cases hld : lineDirective l with
  | none => simp [RobotsChecker.processLine, hld]
  | some p =>
    obtain ⟨d, v⟩ := p
    simp [RobotsChecker.processLine, hld, pd_crawlDelay]

theorem pl_currentUA (st : RobotsAnalysis × Option (List Char)) (l : List Char) :
    (processLine st l).2 =
      match lineDirective l with
      | some (d, v) => if d = "user-agent" then some v else st.2
      | none => st.2 := by
  cases hld : lineDirective l with
  | none => simp [RobotsChecker.processLine, hld]
  | some p =>
    obtain ⟨d, v⟩ := p
    simp [RobotsChecker.processLine, hld, pd_currentUA]

/-! Fold characterizations over whole line lists. -/

theorem foldl_disallowedPaths (ls : List (List Char)) :
    ∀ st : RobotsAnalysis × Option (List Char),
      (ls.foldl processLine st).1.disallowedPaths =
        st.1.disallowedPaths ++ disallowDelta st.2 ls := by
  induction ls with
  | nil => intro st; simp [RobotsChecker.disallowDelta]
  | cons l ls ih =>
    intro st
    rw [List.foldl_cons, ih, pl_disallowedPaths, pl_currentUA]
    cases hld : lineDirective l with
    | none => simp [hld, RobotsChecker.disallowDelta]
    | some p =>
      obtain ⟨d, v⟩ := p
      by_cases h1 : d = "user-agent"
      · simp [hld, h1, RobotsChecker.disallowDelta]
      · by_cases h2 : d = "disallow"
        · cases hu : st.2 <;>
            simp [hld, h1, h2, hu, RobotsChecker.disallowDelta]
        · simp [hld, h1, h2, RobotsChecker.disallowDelta]

theorem foldl_allowedPaths (ls : List (List Char)) :
    ∀ st : RobotsAnalysis × Option (List Char),
      (ls.foldl processLine st).1.allowedPaths =
        st.1.allowedPaths ++ allowDelta st.2 ls := by
  induction ls with
  | nil => intro st; simp [RobotsChecker.allowDelta]
  | cons l ls ih =>
    intro st
    rw [List.foldl_cons, ih, pl_allowedPaths, pl_currentUA]
    cases hld : lineDirective l with
    | none => simp [hld, RobotsChecker.allowDelta]
    | some p =>
      obtain ⟨d, v⟩ := p
      by_cases h1 : d = "user-agent"
      · simp [hld, h1, RobotsChecker.allowDelta]
      · by_cases h2 : d = "allow"
        · cases hu : st.2 <;>
            simp [hld, h1, h2, hu, RobotsChecker.allowDelta]
        · simp [hld, h1, h2, RobotsChecker.allowDelta]

theorem foldl_sitemaps (ls : List (List Char)) :
    ∀ st : RobotsAnalysis × Option (List Char),
      (ls.foldl processLine st).1.sitemaps =
        st.1.sitemaps ++ sitemapValues ls := by
  induction ls with
  | nil => intro st; simp [RobotsChecker.sitemapValues]
  | cons l ls ih =>
    intro st
    rw [List.foldl_cons, ih, pl_sitemaps]
    cases hld : lineDirective l with
    | none => simp [hld, RobotsChecker.sitemapValues]
    | some p =>
      obtain ⟨d, v⟩ := p
      by_cases h4 : d = "sitemap" <;>
        simp [hld, h4, RobotsChecker.sitemapValues]

theorem analyzeLines_disallowedPaths (ls : List (List Char)) :
    (analyzeLines ls).disallowedPaths = disallowDelta none ls := by
  unfold RobotsChecker.analyzeLines
  rw [foldl_disallowedPaths]
  simp

theorem analyzeLines_allowedPaths (ls : List (List Char)) :
    (analyzeLines ls).allowedPaths = allowDelta none ls := by
  unfold RobotsChecker.analyzeLines
  rw [foldl_allowedPaths]
  simp

theorem analyzeLines_sitemaps (ls : List (List Char)) :
    (analyzeLines ls).sitemaps = sitemapValues ls := by
  unfold RobotsChecker.analyzeLines
  rw [foldl_sitemaps]
  simp

theorem disallowDelta_drop_pre (pre post : List (List Char))
    (h : noUserAgentLines pre = true) :
    disallowDelta none (pre ++ post) = disallowDelta none post := by
  induction pre with
  | nil => rfl
  | cons l pre ih =>
    have hl := h
    simp only [RobotsChecker.noUserAgentLines, List.all_cons,
      Bool.and_eq_true] at hl
    obtain ⟨hl1, hl2⟩ := hl
    cases hld : lineDirective l with
    | none => simpa [RobotsChecker.disallowDelta, hld] using ih hl2
    | some p =>
      obtain ⟨d, v⟩ := p
      rw [hld] at hl1
      simp at hl1
      by_cases h2 : d = "disallow"
      · simpa [RobotsChecker.disallowDelta, hld, hl1, h2] using ih hl2
      · simpa [RobotsChecker.disallowDelta, hld, hl1, h2] using ih hl2

theorem allowDelta_drop_pre (pre post : List (List Char))
    (h : noUserAgentLines pre = true) :
    allowDelta none (pre ++ post) = allowDelta none post := by
  induction pre with
  | nil => rfl
  | cons l pre ih =>
    have hl := h
    simp only [RobotsChecker.noUserAgentLines, List.all_cons,
      Bool.and_eq_true] at hl
    obtain ⟨hl1, hl2⟩ := hl
    cases hld : lineDirective l with
    | none => simpa [RobotsChecker.allowDelta, hld] using ih hl2
    | some p =>
      obtain ⟨d, v⟩ := p
      rw [hld] at hl1
      simp at hl1
      by_cases h2 : d = "allow"
      · simpa [RobotsChecker.allowDelta, hld, hl1, h2] using ih hl2
      · simpa [RobotsChecker.allowDelta, hld, hl1, h2] using ih hl2

/-- **C7**: an allow or disallow line before any user-agent line contributes
nothing to the path tables (the analysis of ua-free lines followed by `post`
has the same path tables as the analysis of `post` alone); sitemap lines are
recorded regardless of user-agent context; and a crawl-delay line always sets
`crawlDelay` from its value alone — with an unparseable value leaving it
`null` rather than erroring. -/
theorem analyzeRobotsContent_scoping (pre post : List (List Char))
    (h : noUserAgentLines pre = true) :
    (analyzeLines (pre ++ post)).disallowedPaths =
      (analyzeLines post).disallowedPaths
  ∧ (analyzeLines (pre ++ post)).allowedPaths =
      (analyzeLines post).allowedPaths
  ∧ (analyzeLines (pre ++ post)).sitemaps =
      sitemapValues pre ++ (analyzeLines post).sitemaps
  ∧ (∀ content, analyzeRobotsContent content = analyzeLines (jsSplitNl content.data))
  ∧ (∀ (st : RobotsAnalysis × Option (List Char)) l v,
      lineDirective l = some ("crawl-delay", v) →
      (processLine st l).1.crawlDelay = jsOrNull (jsParseInt v))
  ∧ (∀ (st : RobotsAnalysis × Option (List Char)) l v,
      lineDirective l = some ("crawl-delay", v) → jsParseInt v = none →
      (processLine st l).1.crawlDelay = none) := by
  refine ⟨?_, ?_, ?_, fun _ => rfl, ?_, ?_⟩
  · rw [analyzeLines_disallowedPaths, analyzeLines_disallowedPaths,
      disallowDelta_drop_pre _ _ h]
  · rw [analyzeLines_allowedPaths, analyzeLines_allowedPaths,
      allowDelta_drop_pre _ _ h]
  · rw [analyzeLines_sitemaps, analyzeLines_sitemaps]
    unfold RobotsChecker.sitemapValues
    rw [List.filterMap_append]
  · intro st l v hl
    rw [pl_crawlDelay, hl]
    simp
  · intro st l v hl hp
    rw [pl_crawlDelay, hl]
    simp [hp, RobotsChecker.jsOrNull]

/-- **C7 witness**: a disallow line and a sitemap line before any user-agent
line, followed by a wildcard block. -/
theorem analyzeRobotsContent_scoping_witness :
    noUserAgentLines ["Disallow: /private".data, "Sitemap: https://x/a.xml".data]
      = true
  ∧ (analyzeLines (["Disallow: /private".data, "Sitemap: https://x/a.xml".data]
        ++ ["User-agent: *".data, "Disallow: /b".data])).disallowedPaths =
      (analyzeLines ["User-agent: *".data, "Disallow: /b".data]).disallowedPaths :=
  ⟨by decide,
    (analyzeRobotsContent_scoping
      ["Disallow: /private".data, "Sitemap: https://x/a.xml".data]
      ["User-agent: *".data, "Disallow: /b".data] (by decide)).1⟩

theorem foldl_crawlDelay_none (ls : List (List Char)) :
    ∀ st : RobotsAnalysis × Option (List Char),
      st.1.crawlDelay = none → crawlDelayValuesZero ls = true →
      (ls.foldl processLine st).1.crawlDelay = none := by
  induction ls with
  | nil => intro st h0 _; simpa using h0
  | cons l ls ih =>
    intro st h0 hall
    have hl := hall
    simp only [RobotsChecker.crawlDelayValuesZero, List.all_cons,
      Bool.and_eq_true] at hl
    obtain ⟨hl1, hl2⟩ := hl
    rw [List.foldl_cons]
    refine ih _ ?_ hl2
    rw [pl_crawlDelay]
    cases hld : lineDirective l with
    | none => exact h0
    | some p =>
      obtain ⟨d, v⟩ := p
      rw [hld] at hl1
      by_cases hd : d = "crawl-delay"
      · subst hd
        simp at hl1
        simp [hl1, RobotsChecker.jsOrNull]
      · simp [hd]
        exact h0

/-- **C9**: a `crawl-delay` whose value parses to the integer `0` is
indistinguishable from an absent directive: when every crawl-delay line of the
content parses to `0`, the analysis reports `crawlDelay = null`, because the
parser coerces the falsy parse results `NaN` and `0` alike to `null`. -/
theorem analyzeRobotsContent_crawlDelay_zero (content : String)
    (h : crawlDelayValuesZero (jsSplitNl content.data) = true) :
    (analyzeRobotsContent content).crawlDelay = none := by
  unfold RobotsChecker.analyzeRobotsContent RobotsChecker.analyzeLines
  exact foldl_crawlDelay_none _ _ rfl h

/-- **C9 witness**: the single line `Crawl-delay: 0`. -/
theorem analyzeRobotsContent_crawlDelay_zero_witness :
    crawlDelayValuesZero (jsSplitNl "Crawl-delay: 0".data) = true
  ∧ (analyzeRobotsContent "Crawl-delay: 0").crawlDelay = none :=
  ⟨by decide, analyzeRobotsContent_crawlDelay_zero "Crawl-delay: 0" (by decide)⟩

/-- **C1 counterexample**: a completed check in which both https cells are
reachable and both redirected.  `analyzeResults` classifies it `both-work`
(its third case checks reachability only), while the claimed decision table —
whose `both-work` row requires that neither cell redirects, with every other
case `unclear` — yields `unclear`. -/
theorem wwwRedirection_bothwork_counterexample :
    (analyzeResults bothRedirectTests).wwwRedirection = "both-work"
  ∧ specWwwRedirection (bothRedirectTests "https-www")
      (bothRedirectTests "https-non-www") = "unclear"
  ∧ ¬((analyzeResults bothRedirectTests).wwwRedirection =
      specWwwRedirection (bothRedirectTests "https-www")
        (bothRedirectTests "https-non-www")) := by
  refine ⟨?_, ?_, ?_⟩ <;> decide

/-- **C1 (amended)**: the `wwwRedirection` decision table of `analyzeResults`:
`to-non-www` iff the https-www cell redirected and the https-non-www cell is
reachable without redirecting; symmetrically `to-www`; when neither one-sided
case applies, `both-work` iff both https cells are reachable (regardless of
their redirect flags); `unclear` otherwise.  `preferredUrl` is the winning
cell's final URL (falling back to its request URL when the final URL is
absent or empty) in the two one-sided cases and null otherwise. -/
theorem analyzeResults_wwwRedirection_table (t : String → Option UrlChecker.Cell) :
    ((analyzeResults t).wwwRedirection = "to-non-www" ↔
      (oRed (t "https-www") && oAcc (t "https-non-www") &&
        !oRed (t "https-non-www")) = true)
  ∧ ((analyzeResults t).wwwRedirection = "to-www" ↔
      (oRed (t "https-non-www") && oAcc (t "https-www") &&
        !oRed (t "https-www")) = true)
  ∧ ((analyzeResults t).wwwRedirection = "both-work" ↔
      (!(oRed (t "https-www") && oAcc (t "https-non-www") &&
          !oRed (t "https-non-www")) &&
       !(oRed (t "https-non-www") && oAcc (t "https-www") &&
          !oRed (t "https-www")) &&
       (oAcc (t "https-www") && oAcc (t "https-non-www"))) = true)
  ∧ ((analyzeResults t).wwwRedirection = "unclear" ↔
      (!(oRed (t "https-www") && oAcc (t "https-non-www") &&
          !oRed (t "https-non-www")) &&
       !(oRed (t "https-non-www") && oAcc (t "https-www") &&
          !oRed (t "https-www")) &&
       !(oAcc (t "https-www") && oAcc (t "https-non-www"))) = true)
  ∧ ((analyzeResults t).preferredUrl =
      if (oRed (t "https-www") && oAcc (t "https-non-www") &&
          !oRed (t "https-non-www")) = true then prefOf (t "https-non-www")
      else if (oRed (t "https-non-www") && oAcc (t "https-www") &&
          !oRed (t "https-www")) = true then prefOf (t "https-www")
      else none) := by
  have hx : ¬((oRed (t "https-www") && oAcc (t "https-non-www") &&
        !oRed (t "https-non-www")) = true ∧
      (oRed (t "https-non-www") && oAcc (t "https-www") &&
        !oRed (t "https-www")) = true) := by
    rintro ⟨ha, hb⟩
    simp only [Bool.and_eq_true, Bool.not_eq_true'] at ha hb
    rw [ha.2] at hb
    exact Bool.false_ne_true hb.1.1
  cases h1 : (oRed (t "https-www") && oAcc (t "https-non-www") &&
      !oRed (t "https-non-www")) <;>
    cases h2 : (oRed (t "https-non-www") && oAcc (t "https-www") &&
        !oRed (t "https-www")) <;>
    cases h3 : (oAcc (t "https-www") && oAcc (t "https-non-www")) <;>
    simp [UrlChecker.analyzeResults, h1, h2, h3] <;>
    exact absurd ⟨h1, h2⟩ hx

theorem takeWhile_all {α : Type} {p : α → Bool} {l : List α}
    (h : l.all p = true) : l.takeWhile p = l := by
  induction l with
  | nil => rfl
  | cons c r ih =>
    simp only [List.all_cons, Bool.and_eq_true] at h
    simp [List.takeWhile_cons, h.1, ih h.2]

theorem getUrlKey_https_nonwww (bd : String)
    (hb : "www.".data.isPrefixOf bd.data = false)
    (hs : bd.data.all (fun c => c != '/') = true) :
    getUrlKey ("https://" ++ bd) = "https-non-www" := by
  have h1 : "https://".data.isPrefixOf ("https://" ++ bd).data = true := by
    show "https://".data.isPrefixOf ("https://".data ++ bd.data) = true
    exact isPrefixOf_append_self _ _
  have h2 : ("https://" ++ bd).data.drop 8 = bd.data := by
    show ("https://".data ++ bd.data).drop 8 = bd.data
    exact List.drop_left' (by decide)
  have h3 : bd.data.takeWhile (fun c => c != '/') = bd.data := takeWhile_all hs
  unfold UrlChecker.getUrlKey
  simp [h1, h2, h3, hb]

theorem getUrlKey_http_nonwww (bd : String)
    (hb : "www.".data.isPrefixOf bd.data = false)
    (hs : bd.data.all (fun c => c != '/') = true) :
    getUrlKey ("http://" ++ bd) = "http-non-www" := by
  have h1 : "https://".data.isPrefixOf ("http://" ++ bd).data = false := rfl
  have h2 : "http://".data.isPrefixOf ("http://" ++ bd).data = true := by
    show "http://".data.isPrefixOf ("http://".data ++ bd.data) = true
    exact isPrefixOf_append_self _ _
  have h3 : ("http://" ++ bd).data.drop 7 = bd.data := by
    show ("http://".data ++ bd.data).drop 7 = bd.data
    exact List.drop_left' (by decide)
  have h4 : bd.data.takeWhile (fun c => c != '/') = bd.data := takeWhile_all hs
  unfold UrlChecker.getUrlKey
  simp [h1, h2, h3, h4, hb]

theorem getUrlKey_https_www (bd : String) :
    getUrlKey ("https://www." ++ bd) = "https-www" := by
  have h1 : "https://".data.isPrefixOf ("https://www." ++ bd).data = true := rfl
  have h2 : ("https://www." ++ bd).data.drop 8 = "www.".data ++ bd.data := by
    show ("https://www.".data ++ bd.data).drop 8 = "www.".data ++ bd.data
    have : "https://www.".data ++ bd.data =
        "https://".data ++ ("www.".data ++ bd.data) := rfl
    rw [this]
    exact List.drop_left' (by decide)
  have h3 : ("www.".data ++ bd.data).takeWhile (fun c => c != '/') =
      'w' :: 'w' :: 'w' :: '.' :: bd.data.takeWhile (fun c => c != '/') := rfl
  have h4 : "www.".data.isPrefixOf
      ('w' :: 'w' :: 'w' :: '.' :: bd.data.takeWhile (fun c => c != '/')) = true :=
    isPrefixOf_append_self "www.".data _
  unfold UrlChecker.getUrlKey
  simp [h1, h2, h3, h4]

theorem getUrlKey_http_www (bd : String) :
    getUrlKey ("http://www." ++ bd) = "http-www" := by
  have h1 : "https://".data.isPrefixOf ("http://www." ++ bd).data = false := rfl
  have h2 : "http://".data.isPrefixOf ("http://www." ++ bd).data = true := rfl
  have h3 : ("http://www." ++ bd).data.drop 7 = "www.".data ++ bd.data := by
    show ("http://www.".data ++ bd.data).drop 7 = "www.".data ++ bd.data
    have : "http://www.".data ++ bd.data =
        "http://".data ++ ("www.".data ++ bd.data) := rfl
    rw [this]
    exact List.drop_left' (by decide)
  have h4 : ("www.".data ++ bd.data).takeWhile (fun c => c != '/') =
      'w' :: 'w' :: 'w' :: '.' :: bd.data.takeWhile (fun c => c != '/') := rfl
  have h5 : "www.".data.isPrefixOf
      ('w' :: 'w' :: 'w' :: '.' :: bd.data.takeWhile (fun c => c != '/')) = true :=
    isPrefixOf_append_self "www.".data _
  unfold UrlChecker.getUrlKey
  simp [h1, h2, h3, h4, h5]

/-- **C3 counterexample**: for the domain `www.www.example.com` the stripped
base domain still starts with `www.`, so the four probed URLs collapse onto
two keys and the completed tests map has two cells, not four. -/
theorem testUrl_double_www_counterexample :
    ((testUrl "www.www.example.com" unreachableProbe).tests.map Prod.fst =
      ["https-www", "http-www"])
  ∧ ¬((testUrl "www.www.example.com" unreachableProbe).tests.map Prod.fst =
      ["https-non-www", "https-www", "http-non-www", "http-www"]) := by
  refine ⟨?_, ?_⟩ <;> decide

/-- **C3 (amended)**: for every domain that is a hostname (no `/`) whose
www-stripped base does not itself start with `www.`, a completed `testUrl`
run has exactly the four cells keyed `https-non-www`, `https-www`,
`http-non-www`, `http-www`, in that insertion order, regardless of the probe
outcomes; each key holds exactly its URL's `testSingleUrl` cell (so a failed
probe yields a present cell rather than a missing one); and a URL both of
whose fetch attempts threw still has a cell, with `accessible = false`. -/
theorem testUrl_four_cells (domain : String)
    (probe : String → FetchOutcome × FetchOutcome)
    (hb : "www.".data.isPrefixOf (stripLeadingWww domain).data = false)
    (hs : domain.data.all (fun c => c != '/') = true) :
    ((testUrl domain probe).tests.map Prod.fst =
      ["https-non-www", "https-www", "http-non-www", "http-www"])
  ∧ (∀ u ∈ urlsToTest (stripLeadingWww domain),
      lookupA (testUrl domain probe).tests (getUrlKey u) =
        some (testSingleUrl u (probe u).1 (probe u).2))
  ∧ (∀ u ∈ urlsToTest (stripLeadingWww domain), ∀ e e2,
      probe u = (FetchOutcome.threw e, FetchOutcome.threw e2) →
      ∃ c, lookupA (testUrl domain probe).tests (getUrlKey u) = some c ∧
        c.accessible = false) := by
  have hsb : (stripLeadingWww domain).data.all (fun c => c != '/') = true := by
    unfold UrlChecker.stripLeadingWww
    by_cases hw : "www.".data.isPrefixOf domain.data = true
    · rw [if_pos hw]
      show (domain.data.drop 4).all (fun c => c != '/') = true
      rw [List.all_eq_true] at hs ⊢
      intro c hc
      exact hs c (List.drop_subset _ _ hc)
    · rw [if_neg hw]
      exact hs
  have k1 : getUrlKey ("https://" ++ stripLeadingWww domain) = "https-non-www" :=
    getUrlKey_https_nonwww _ hb hsb
  have k2 := getUrlKey_https_www (stripLeadingWww domain)
  have k3 : getUrlKey ("http://" ++ stripLeadingWww domain) = "http-non-www" :=
    getUrlKey_http_nonwww _ hb hsb
  have k4 := getUrlKey_http_www (stripLeadingWww domain)
  have htests : (testUrl domain probe).tests =
      [("https-non-www",
        testSingleUrl ("https://" ++ stripLeadingWww domain)
          (probe ("https://" ++ stripLeadingWww domain)).1
          (probe ("https://" ++ stripLeadingWww domain)).2),
       ("https-www",
        testSingleUrl ("https://www." ++ stripLeadingWww domain)
          (probe ("https://www." ++ stripLeadingWww domain)).1
          (probe ("https://www." ++ stripLeadingWww domain)).2),
       ("http-non-www",
        testSingleUrl ("http://" ++ stripLeadingWww domain)
          (probe ("http://" ++ stripLeadingWww domain)).1
          (probe ("http://" ++ stripLeadingWww domain)).2),
       ("http-www",
        testSingleUrl ("http://www." ++ stripLeadingWww domain)
          (probe ("http://www." ++ stripLeadingWww domain)).1
          (probe ("http://www." ++ stripLeadingWww domain)).2)] := by
    unfold UrlChecker.testUrl UrlChecker.urlsToTest
    simp only [List.foldl_cons, List.foldl_nil]
    rw [k1, k2, k3, k4]
    simp [UrlChecker.objSet]
  have hlook : ∀ u ∈ urlsToTest (stripLeadingWww domain),
      lookupA (testUrl domain probe).tests (getUrlKey u) =
        some (testSingleUrl u (probe u).1 (probe u).2) := by
    intro u hu
    simp only [UrlChecker.urlsToTest, List.mem_cons, List.not_mem_nil,
      or_false] at hu
    rcases hu with rfl | rfl | rfl | rfl
    · rw [htests, k1]
      simp [UrlChecker.lookupA, List.find?]
    · rw [htests, k2]
      simp [UrlChecker.lookupA, List.find?]
    · rw [htests, k3]
      simp [UrlChecker.lookupA, List.find?]
    · rw [htests, k4]
      simp [UrlChecker.lookupA, List.find?]
  refine ⟨by rw [htests]; rfl, hlook, ?_⟩
  intro u hu e e2 hpe
  refine ⟨testSingleUrl u (probe u).1 (probe u).2, hlook u hu, ?_⟩
  rw [hpe]
  rfl

/-- **C3 witness**: the ordinary domain `example.com` with every probe
throwing still yields the four cells. -/
theorem testUrl_four_cells_witness :
    ("www.".data.isPrefixOf (stripLeadingWww "example.com").data = false)
  ∧ ("example.com".data.all (fun c => c != '/') = true)
  ∧ ((testUrl "example.com" unreachableProbe).tests.map Prod.fst =
      ["https-non-www", "https-www", "http-non-www", "http-www"]) :=
  ⟨by decide, by decide,
    (testUrl_four_cells "example.com" unreachableProbe (by decide) (by decide)).1⟩
